import Mathlib

/-!
Verification development for the charm.li manual-manifest crawler
(manuals_downloader.py) and the downstream manifest lookup tool
(src/auto_mechanic_agent/tools/custom_tool.py, QueryManifestTool).

The crawler is embedded shallowly: network responses are supplied by two
oracle functions (one giving the HTTP status observed by each probe, one
giving the parsed anchor list of each listing fetch, with none standing
for a requests.RequestException or, for listing fetches, a
raise_for_status failure).  Outbound requests, throttle sleeps and
warning logs are recorded as an explicit event trace.  The filesystem is
an Option (List String): the list of records of the file at OUTPUT_CSV,
or none when no file exists.
-/

set_option maxRecDepth 8000

/-! ## Character and string helpers (Python semantics, over List Char) -/

/-- Whitespace recognised by Python str.strip (ASCII subset, which is all
the crawler can meet in href attributes of interest). -/
def pyWsChar (c : Char) : Bool :=
  decide (c = ' ') || decide (c = '\t') || decide (c = '\n') ||
  decide (c = '\r') || decide (c = '\x0b') || decide (c = '\x0c')

/-- Leading and trailing whitespace removal on a character list. -/
def stripChars (l : List Char) : List Char :=
  ((l.dropWhile pyWsChar).reverse.dropWhile pyWsChar).reverse

/-- Python str.strip() on a string. -/
def pyStrip (s : String) : String := ⟨stripChars s.data⟩

/-- Python str.startswith. -/
def strStartsWith (s p : String) : Bool := p.data.isPrefixOf s.data

/-- Python str.endswith. -/
def strEndsWith (s p : String) : Bool := p.data.reverse.isPrefixOf s.data.reverse

/-- Occurrence of needle as a contiguous substring of hay, as in the
Python membership test needle in hay. -/
def occursIn (needle : List Char) : List Char → Bool
  | [] => needle.isEmpty
  | c :: r => needle.isPrefixOf (c :: r) || occursIn needle r

/-- Value of one hexadecimal digit, if the character is one. -/
def hexVal (c : Char) : Option Nat :=
  if '0' ≤ c ∧ c ≤ '9' then some (c.toNat - '0'.toNat)
  else if 'a' ≤ c ∧ c ≤ 'f' then some (c.toNat - 'a'.toNat + 10)
  else if 'A' ≤ c ∧ c ≤ 'F' then some (c.toNat - 'A'.toNat + 10)
  else none

/-- Percent-decoding of a character list: a percent sign followed by two
hex digits becomes the coded character; an invalid escape is kept
verbatim, as in urllib.  Single-byte escapes only, which covers every
escape appearing in the crawler's configuration (%20). -/
def pcDecode : List Char → List Char
  | [] => []
  | '%' :: a :: b :: r =>
    match hexVal a, hexVal b with
    | some hi, some lo => Char.ofNat (16 * hi + lo) :: pcDecode r
    | _, _ => '%' :: pcDecode (a :: b :: r)
  | c :: rest => c :: pcDecode rest

/-- Model of requests.utils.unquote restricted to single-byte escapes. -/
def unquote (s : String) : String := ⟨pcDecode s.data⟩

/-! ## Crawler configuration (CONFIG block of manuals_downloader.py) -/

def BASE_URL : String := "https://charm.li"

def OUTPUT_CSV : String := "charm_manifest.csv"

def YEAR_START : Nat := 1980

def YEAR_END : Nat := 2024

/-- URL-encoded make list from the source (the comment there says 49,
the list itself has 52 entries). -/
def MAKES : List String :=
  ["Acura","Audi","BMW","Buick","Cadillac","Chevrolet","Chrysler","Daewoo","Daihatsu",
   "Dodge%20and%20Ram","Eagle","Fiat","Ford","Freightliner","GMC","Geo","Honda","Hummer",
   "Hyundai","Infiniti","Isuzu","Jaguar","Jeep","Kia","Land%20Rover","Lexus","Lincoln",
   "Mazda","Mercedes%20Benz","Mercury","Mini","Mitsubishi","Nissan-Datsun","Oldsmobile",
   "Peugeot","Plymouth","Pontiac","Porsche","Renault","SRT","Saab","Saturn","Scion","Smart",
   "Subaru","Suzuki","Toyota","UD","Volkswagen","Volvo","Workhorse","Yugo"]

/-- Python range(YEAR_START, YEAR_END + 1). -/
def yearRange : List Nat := List.range' YEAR_START (YEAR_END + 1 - YEAR_START)

/-! ## Data model -/

/-- One parsed hyperlink of a listing page: its href attribute and its
visible text (the scraper reads it with get_text(strip=True), modelled
by stripping this field). -/
structure Anchor where
  href : String
  text : String
deriving DecidableEq

/-- Observable actions of a crawler run: a throttle sleep of the fixed
THROTTLE duration, an outbound request to a URL, a warning log about a
URL. -/
inductive Event where
  | sleep : Event
  | req : String → Event
  | warn : String → Event
deriving DecidableEq

/-- One row of the output manifest. -/
structure Entry where
  make : String
  model : String
  year : String
  bundle_url : String
deriving DecidableEq

/-- Oracle for probe requests: the HTTP status the server answers for the
listing page of a (make, year), or none for a raised RequestException. -/
abbrev ProbeOracle := String → Nat → Option Nat

/-- Oracle for listing fetches: the parsed anchors of the page served at a
URL, or none when the fetch raises (connection error, timeout, or a
raise_for_status on a non-success status). -/
abbrev FetchOracle := String → Option (List Anchor)

/-! ## Crawler operations (manuals_downloader.py) -/

/-- Listing URL built by probe_year: BASE_URL/make/year/. -/
def listingUrl (make : String) (year : Nat) : String :=
  BASE_URL ++ "/" ++ make ++ "/" ++ toString year ++ "/"

/-- probe_year: one GET against the listing URL; the URL is returned
exactly when the status is 200, and none on any other status or on a
RequestException. -/
def probe_year (pr : ProbeOracle) (make : String) (year : Nat) :
    List Event × Option String :=
  ([Event.req (listingUrl make year)],
   match pr make year with
   | some code => if code = 200 then some (listingUrl make year) else none
   | none => none)

/-- Path that a detail link must start with: /make/year/ (make in its
encoded form), the local variable of get_models_for_year. -/
def modelLinkPre (make : String) (year : Nat) : String :=
  "/" ++ make ++ "/" ++ toString year ++ "/"

/-- Loop body of get_models_for_year over the anchors of the page, with
the entries accumulator: an anchor whose stripped href starts with
/make/year/ and does not end with /bundle/ contributes
(stripped text, BASE_URL ++ "/bundle" ++ stripped href). -/
def scrapeLoop (make : String) (year : Nat) :
    List Anchor → List (String × String) → List (String × String)
  | [], entries => entries
  | a :: rest, entries =>
    let href := pyStrip a.href
    if strStartsWith href (modelLinkPre make year) && !(strEndsWith href "/bundle/") then
      scrapeLoop make year rest (entries ++ [(pyStrip a.text, BASE_URL ++ "/bundle" ++ href)])
    else
      scrapeLoop make year rest entries

/-- get_models_for_year: fetches year_url; on a fetch failure it logs a
warning and returns no entries; otherwise it scrapes the document. -/
def get_models_for_year (fr : FetchOracle) (make : String) (year : Nat)
    (year_url : String) : List Event × List (String × String) :=
  match fr year_url with
  | none => ([Event.req year_url, Event.warn year_url], [])
  | some doc => ([Event.req year_url], scrapeLoop make year doc [])

/-- Manifest row built by build_and_write_manifest for one scraped
(model, bundle_url) pair: the make is percent-decoded, the year is the
decimal string of the iteration year. -/
def entryOf (make : String) (year : Nat) (p : String × String) : Entry :=
  { make := unquote make, model := p.1, year := toString year, bundle_url := p.2 }

/-- Body of the inner year loop of build_and_write_manifest: probe; on
absence continue with no further action; on presence fetch and scrape the
listing, append its rows, then sleep the throttle. -/
def yearStep (pr : ProbeOracle) (fr : FetchOracle) (make : String) (year : Nat) :
    List Event × List Entry :=
  match (probe_year pr make year).2 with
  | none => ((probe_year pr make year).1, [])
  | some url =>
    ((probe_year pr make year).1 ++ (get_models_for_year fr make year url).1 ++ [Event.sleep],
     ((get_models_for_year fr make year url).2).map (entryOf make year))

/-- Inner loop of build_and_write_manifest over the year range. -/
def yearsLoop (pr : ProbeOracle) (fr : FetchOracle) (make : String) :
    List Nat → List Event × List Entry
  | [] => ([], [])
  | y :: ys =>
    ((yearStep pr fr make y).1 ++ (yearsLoop pr fr make ys).1,
     (yearStep pr fr make y).2 ++ (yearsLoop pr fr make ys).2)

/-- Outer loop of build_and_write_manifest over the make list: one
throttle sleep at the top of each make iteration, then the year loop. -/
def makesLoop (pr : ProbeOracle) (fr : FetchOracle) :
    List String → List Event × List Entry
  | [] => ([], [])
  | mk :: mks =>
    (Event.sleep :: ((yearsLoop pr fr mk yearRange).1 ++ (makesLoop pr fr mks).1),
     (yearsLoop pr fr mk yearRange).2 ++ (makesLoop pr fr mks).2)

/-! ## CSV writing (csv.DictWriter with the default dialect) -/

/-- A field is quoted when it holds the delimiter, the quote character or
a line break (QUOTE_MINIMAL). -/
def csvNeedsQuote (s : String) : Bool :=
  s.data.any (fun c =>
    decide (c = ',') || decide (c = '"') || decide (c = '\n') || decide (c = '\r'))

/-- Doubling of embedded quote characters inside a quoted field. -/
def csvEscape : List Char → List Char
  | [] => []
  | c :: r => if c = '"' then '"' :: '"' :: csvEscape r else c :: csvEscape r

/-- One rendered CSV field under QUOTE_MINIMAL. -/
def csvField (s : String) : String :=
  if csvNeedsQuote s then "\"" ++ String.mk (csvEscape s.data) ++ "\"" else s

/-- Comma join of rendered fields. -/
def csvJoin : List String → String
  | [] => ""
  | [f] => f
  | f :: g :: r => f ++ "," ++ csvJoin (g :: r)

/-- One rendered manifest record, in the fixed column order of the
source's keys list. -/
def csvRow (e : Entry) : String :=
  csvJoin [csvField e.make, csvField e.model, csvField e.year, csvField e.bundle_url]

/-- Header record written by writeheader for the keys list. -/
def csvHeaderRow : String := "make,model,year,bundle_url"

/-- Records of the written artifact: the header, then one record per
manifest entry. -/
def csvLines (rows : List Entry) : List String :=
  csvHeaderRow :: rows.map csvRow

/-- Path(OUTPUT_CSV).unlink(missing_ok=True): afterwards no file exists;
the operation is total, so a missing file is not an error. -/
def unlink_missing_ok (_fs : Option (List String)) : Option (List String) := none

/-- Opening the path in mode w and writing header plus rows: the previous
state is truncated away and the new records become the file. -/
def writeCsv (_fs : Option (List String)) (rows : List Entry) : Option (List String) :=
  some (csvLines rows)

/-- build_and_write_manifest: the full crawl over MAKES and the year
range, then the delete-and-rewrite of the artifact.  Result: the event
trace, the accumulated manifest, and the final file state. -/
def build_and_write_manifest (pr : ProbeOracle) (fr : FetchOracle)
    (fs0 : Option (List String)) :
    List Event × List Entry × Option (List String) :=
  ((makesLoop pr fr MAKES).1,
   (makesLoop pr fr MAKES).2,
   writeCsv (unlink_missing_ok fs0) (makesLoop pr fr MAKES).2)

/-! ## Trace property: throttling (formalisation of the spec's rate-limit
sentence) -/

/-- State machine over the trace: armed records whether a throttle sleep
has happened since the last outbound request (or, initially, at all).  A
request is admissible only when armed. -/
def throttledFrom : Bool → List Event → Bool
  | _, [] => true
  | _, Event.sleep :: r => throttledFrom true r
  | armed, Event.req _ :: r => armed && throttledFrom false r
  | armed, Event.warn _ :: r => throttledFrom armed r

/-- A trace is well throttled when every outbound request is preceded by
its own throttle sleep issued after the previous request. -/
def wellThrottled (evs : List Event) : Bool := throttledFrom false evs

/-! ## Query tool (QueryManifestTool in custom_tool.py) -/

/-- ASCII lowering, the case folding SQL ILIKE performs on the operands
this development meets. -/
def lowChar (c : Char) : Char :=
  if 'A' ≤ c ∧ c ≤ 'Z' then Char.ofNat (c.toNat + 32) else c

/-- Lowercasing of a string. -/
def lowerStr (s : String) : String := ⟨s.data.map lowChar⟩

/-- SQL LIKE pattern matching: a percent sign matches any sequence, an
underscore matches exactly one character, any other pattern character
matches itself. -/
def likeMatch : (p : List Char) → (t : List Char) → Bool
  | [], [] => true
  | [], _ :: _ => false
  | c :: p, [] => if c = '%' then likeMatch p [] else false
  | c :: p, d :: r =>
    if c = '%' then likeMatch p (d :: r) || likeMatch (c :: p) r
    else if c = '_' then likeMatch p r
    else if c = d then likeMatch p r
    else false
termination_by p t => (t.length, p.length)

/-- SQL ILIKE: LIKE on the lowercased operands. -/
def sqlILike (text pat : String) : Bool :=
  likeMatch (lowerStr pat).data (lowerStr text).data

/-- The query the tool runs: select bundle_url from manifest rows where
make and year are equal to the arguments and model ILIKE-matches
percent-model-percent, limited to one row. -/
def query_manifest (rows : List Entry) (make model year : String) : List String :=
  (((rows.filter (fun r =>
      decide (r.make = make) && sqlILike r.model ("%" ++ model ++ "%") &&
      decide (r.year = year))).map (fun r => r.bundle_url)).take 1)

/-- A pattern fragment free of LIKE wildcards. -/
def noWild (l : List Char) : Bool :=
  l.all (fun c => !(decide (c = '%') || decide (c = '_')))

/-! ## Definitions following the spec's words (refinement comparisons) -/

/-- Modelled from the spec: a response status indicating success in the
HTTP sense, the 2xx class. -/
def specSuccessStatus (code : Nat) : Bool :=
  decide (200 ≤ code) && decide (code < 300)

/-- Modelled from the spec: case-insensitive substring containment of the
queried model in a row's model field. -/
def specModelContains (rowModel queried : String) : Bool :=
  occursIn (lowerStr queried).data (lowerStr rowModel).data

/-! ## Helper lemmas -/

/-- Any space character in a character list. -/
def hasSpace (l : List Char) : Bool := l.any (fun c => decide (c = ' '))

theorem scrapeLoop_eq (make : String) (year : Nat) (anchors : List Anchor)
    (acc : List (String × String)) :
    scrapeLoop make year anchors acc =
    acc ++ anchors.filterMap (fun a =>
      if strStartsWith (pyStrip a.href) (modelLinkPre make year) &&
         !(strEndsWith (pyStrip a.href) "/bundle/")
      then some (pyStrip a.text, BASE_URL ++ "/bundle" ++ pyStrip a.href)
      else none) := by
  induction anchors generalizing acc with
  | nil => simp [scrapeLoop]
  | cons a rest ih =>
    simp only [scrapeLoop, List.filterMap_cons]
    by_cases h : (strStartsWith (pyStrip a.href) (modelLinkPre make year) &&
        !(strEndsWith (pyStrip a.href) "/bundle/")) = true
    · rw [if_pos h, if_pos h, ih]
      simp [List.append_assoc]
    · rw [if_neg h, if_neg h, ih]

theorem mem_scrape {make : String} {year : Nat} {doc : List Anchor}
    {p : String × String} (hp : p ∈ scrapeLoop make year doc []) :
    ∃ a ∈ doc,
      (strStartsWith (pyStrip a.href) (modelLinkPre make year) &&
        !(strEndsWith (pyStrip a.href) "/bundle/")) = true ∧
      p = (pyStrip a.text, BASE_URL ++ "/bundle" ++ pyStrip a.href) := by
  rw [scrapeLoop_eq, List.nil_append, List.mem_filterMap] at hp
  obtain ⟨a, ha, hifa⟩ := hp
  by_cases h : (strStartsWith (pyStrip a.href) (modelLinkPre make year) &&
      !(strEndsWith (pyStrip a.href) "/bundle/")) = true
  · rw [if_pos h] at hifa
    exact ⟨a, ha, h, (Option.some_inj.mp hifa).symm⟩
  · rw [if_neg h] at hifa
    exact absurd hifa (Option.some_ne_none _).symm

theorem strStartsWith_iff {s p : String} :
    strStartsWith s p = true ↔ ∃ t, s.data = p.data ++ t := by
  unfold strStartsWith
  rw [ List.isPrefixOf_iff_prefix]
  constructor
  · rintro ⟨t, ht⟩
    exact ⟨t, ht.symm⟩
  · rintro ⟨t, ht⟩
    exact ⟨t, ht.symm⟩

theorem bundle_url_data {mk : String} {y : Nat} {h : String} {t : List Char}
    (hd : h.data = (modelLinkPre mk y).data ++ t) :
    (BASE_URL ++ "/bundle" ++ h).data =
    (BASE_URL ++ "/bundle/" ++ mk ++ "/" ++ toString y ++ "/").data ++ t := by
  have hb : ("/bundle/" : String).data = ("/bundle" : String).data ++ ['/'] := by decide
  have hs : ("/" : String).data = ['/'] := by decide
  simp [String.data_append, modelLinkPre, hd, hb, hs, List.append_assoc]

theorem mem_yearStep {pr : ProbeOracle} {fr : FetchOracle} {mk : String}
    {y : Nat} {e : Entry} (he : e ∈ (yearStep pr fr mk y).2) :
    (probe_year pr mk y).2.isSome = true ∧
    ∃ p ∈ (get_models_for_year fr mk y ((probe_year pr mk y).2.getD "")).2,
      e = entryOf mk y p := by
  cases hp : (probe_year pr mk y).2 with
  | none => simp [yearStep, hp] at he
  | some url =>
    simp only [yearStep, hp] at he
    rw [List.mem_map] at he
    obtain ⟨p, hpm, hpe⟩ := he
    exact ⟨by simp [hp], p, by simpa [hp] using hpm, hpe.symm⟩

theorem mem_yearsLoop {pr : ProbeOracle} {fr : FetchOracle} {mk : String}
    {ys : List Nat} {e : Entry} (he : e ∈ (yearsLoop pr fr mk ys).2) :
    ∃ y ∈ ys, e ∈ (yearStep pr fr mk y).2 := by
  induction ys with
  | nil => simp [yearsLoop] at he
  | cons y ys ih =>
    simp only [yearsLoop, List.mem_append] at he
    rcases he with he | he
    · exact ⟨y, List.mem_cons_self y ys, he⟩
    · obtain ⟨y', hy', he'⟩ := ih he
      exact ⟨y', List.mem_cons_of_mem _ hy', he'⟩

theorem mem_makesLoop {pr : ProbeOracle} {fr : FetchOracle} {l : List String}
    {e : Entry} (he : e ∈ (makesLoop pr fr l).2) :
    ∃ mk ∈ l, e ∈ (yearsLoop pr fr mk yearRange).2 := by
  induction l with
  | nil => simp [makesLoop] at he
  | cons mk mks ih =>
    simp only [makesLoop, List.mem_append] at he
    rcases he with he | he
    · exact ⟨mk, List.mem_cons_self mk mks, he⟩
    · obtain ⟨mk', hmk', he'⟩ := ih he
      exact ⟨mk', List.mem_cons_of_mem _ hmk', he'⟩

theorem yearsLoop_trace (pr : ProbeOracle) (fr : FetchOracle) (mk : String)
    (ys : List Nat) :
    (yearsLoop pr fr mk ys).1 = ys.flatMap (fun y => (yearStep pr fr mk y).1) := by
  induction ys with
  | nil => simp [yearsLoop]
  | cons y ys ih => simp [yearsLoop, ih]

theorem makesLoop_trace (pr : ProbeOracle) (fr : FetchOracle) (l : List String) :
    (makesLoop pr fr l).1 =
    l.flatMap (fun mk => Event.sleep ::
      yearRange.flatMap (fun y => (yearStep pr fr mk y).1)) := by
  induction l with
  | nil => simp [makesLoop]
  | cons mk mks ih => simp [makesLoop, ih, yearsLoop_trace]

theorem likeMatch_pct_nil (t : List Char) : likeMatch ['%'] t = true := by
  induction t with
  | nil => simp [likeMatch]
  | cons c r ih => simp [likeMatch, ih]

theorem likeMatch_lit_pct {lit : List Char} (hw : noWild lit = true) :
    ∀ t, likeMatch (lit ++ ['%']) t = lit.isPrefixOf t := by
  induction lit with
  | nil =>
    intro t
    simp [likeMatch_pct_nil, List.isPrefixOf]
  | cons c cs ih =>
    simp only [noWild, List.all_cons, Bool.and_eq_true, Bool.not_eq_true',
      Bool.or_eq_false_iff, decide_eq_false_iff_not] at hw
    intro t
    cases t with
    | nil => simp [likeMatch, hw.1.1, List.isPrefixOf]
    | cons d r =>
      by_cases hd : c = d
      · subst hd
        simp [likeMatch, hw.1.1, hw.1.2, ih hw.2, List.isPrefixOf]
      · simp [likeMatch, hw.1.1, hw.1.2, hd, List.isPrefixOf]

theorem likeMatch_occursIn {lit : List Char} (hw : noWild lit = true) :
    ∀ t, likeMatch ('%' :: (lit ++ ['%'])) t = occursIn lit t := by
  intro t
  induction t with
  | nil =>
    have h0 : likeMatch ('%' :: (lit ++ ['%'])) [] = likeMatch (lit ++ ['%']) [] := by
      simp [likeMatch]
    rw [h0, likeMatch_lit_pct hw]
    cases lit <;> simp [occursIn, List.isPrefixOf, List.isEmpty]
  | cons c r ih =>
    simp [likeMatch, likeMatch_lit_pct hw, ih, occursIn]

theorem occursIn_iff {n h : List Char} : occursIn n h = true ↔ n <:+: h := by
  induction h with
  | nil => cases n <;> simp [occursIn, List.isEmpty]
  | cons c r ih =>
    simp [occursIn, List.infix_cons_iff, List.isPrefixOf_iff_prefix, ih]

theorem hasSpace_of_occursIn {n h : List Char} (ho : occursIn n h = true)
    (hn : hasSpace n = true) : hasSpace h = true := by
  have hi : n <:+: h := occursIn_iff.mp ho
  rw [hasSpace, List.any_eq_true] at hn ⊢
  obtain ⟨c, hc, hcs⟩ := hn
  exact ⟨c, hi.sublist.subset hc, hcs⟩

theorem stripChars_sublist (l : List Char) : (stripChars l).Sublist l := by
  have h2 : ((l.dropWhile pyWsChar).reverse.dropWhile pyWsChar).Sublist
      (l.dropWhile pyWsChar).reverse := List.dropWhile_sublist _
  have h3 := h2.reverse
  rw [List.reverse_reverse] at h3
  exact h3.trans (List.dropWhile_sublist _)

theorem hasSpace_strip_false {s : String} (h : hasSpace s.data = false) :
    hasSpace (pyStrip s).data = false := by
  have hd : (pyStrip s).data = stripChars s.data := rfl
  rw [hd]
  rw [hasSpace, List.any_eq_false] at h ⊢
  intro x hx
  exact h x ((stripChars_sublist _).subset hx)

/-! ## Claim theorems -/

/-- Claim C1, counterexample.  The claim says every outbound request of a
run (each probe and each listing fetch) is preceded by its own throttle
sleep, unconditionally, in particular even after a failed probe; formally
wellThrottled of every run's trace would be true.  The run below, in which
every probe fails, refutes it: after the failed first probe of a make the
next probe is issued with no intervening sleep. -/
theorem c1_throttle_cex :
    wellThrottled
      (build_and_write_manifest (fun _ _ => none) (fun _ => none) none).1 = false := rfl

/-- Claim C1, amended.  The trace of a run is, per make, one leading
throttle sleep followed by the year segments; a year whose probe fails
contributes exactly its probe request with no sleep of its own; a year
whose probe succeeds contributes the probe request, immediately (with no
intervening sleep) the listing fetch request, a warning when that fetch
fails, and one trailing throttle sleep. -/
theorem c1_trace_shape : ∀ (pr : ProbeOracle) (fr : FetchOracle),
    (∀ fs0, (build_and_write_manifest pr fr fs0).1 =
      MAKES.flatMap (fun mk => Event.sleep ::
        yearRange.flatMap (fun y => (yearStep pr fr mk y).1))) ∧
    ∀ mk y,
      ((probe_year pr mk y).2 = none →
        (yearStep pr fr mk y).1 = [Event.req (listingUrl mk y)]) ∧
      (∀ url, (probe_year pr mk y).2 = some url → fr url = none →
        (yearStep pr fr mk y).1 =
          [Event.req (listingUrl mk y), Event.req url, Event.warn url, Event.sleep]) ∧
      (∀ url doc, (probe_year pr mk y).2 = some url → fr url = some doc →
        (yearStep pr fr mk y).1 =
          [Event.req (listingUrl mk y), Event.req url, Event.sleep]) := by
  intro pr fr
  refine ⟨fun fs0 => makesLoop_trace pr fr MAKES, fun mk y => ⟨?_, ?_, ?_⟩⟩
  · intro hp
    simp only [yearStep]
    rw [hp]
    simp [probe_year]
  · intro url hp hf
    simp only [yearStep]
    rw [hp]
    simp only [get_models_for_year]
    rw [hf]
    simp [probe_year]
  · intro url doc hp hf
    simp only [yearStep]
    rw [hp]
    simp only [get_models_for_year]
    rw [hf]
    simp [probe_year]

/-- Witness for the amended claim C1 at a concrete successful pair. -/
theorem c1_trace_shape_witness :
    (yearStep (fun _ _ => some 200) (fun _ => some []) "Toyota" 2006).1 =
    [Event.req (listingUrl "Toyota" 2006), Event.req (listingUrl "Toyota" 2006),
     Event.sleep] :=
  ((c1_trace_shape (fun _ _ => some 200) (fun _ => some [])).2 "Toyota" 2006).2.2
    (listingUrl "Toyota" 2006) [] rfl rfl

/-- Claim C2: for a (make, year) pair whose probe returned present, every
entry emitted for that pair has a bundle_url starting with
base_url + "/bundle/" + make + "/" + year + "/". -/
theorem c2_bundle_url_has_listing_path : ∀ (pr : ProbeOracle) (fr : FetchOracle)
    (mk : String) (y : Nat) (url : String),
    (probe_year pr mk y).2 = some url →
    ∀ e ∈ (yearStep pr fr mk y).2,
      strStartsWith e.bundle_url
        (BASE_URL ++ "/bundle/" ++ mk ++ "/" ++ toString y ++ "/") = true := by
  intro pr fr mk y url hp e he
  simp only [yearStep, hp] at he
  rw [List.mem_map] at he
  obtain ⟨p, hpm, hpe⟩ := he
  cases hf : fr url with
  | none => simp [get_models_for_year, hf] at hpm
  | some doc =>
    simp only [get_models_for_year, hf] at hpm
    obtain ⟨a, _, hcond, hpeq⟩ := mem_scrape hpm
    have hsw : strStartsWith (pyStrip a.href) (modelLinkPre mk y) = true := by
      simp only [Bool.and_eq_true] at hcond
      exact hcond.1
    obtain ⟨t, ht⟩ := strStartsWith_iff.mp hsw
    have hb := bundle_url_data ht
    rw [← hpe, hpeq]
    simp only [entryOf]
    rw [strStartsWith_iff]
    exact ⟨t, hb⟩

/-- Witness for claim C2 at a concrete pair and listing page. -/
theorem c2_bundle_url_has_listing_path_witness :
    strStartsWith
      (Entry.mk "Toyota" "Camry LE" "2006"
        "https://charm.li/bundle/Toyota/2006/camry-le/").bundle_url
      (BASE_URL ++ "/bundle/" ++ "Toyota" ++ "/" ++ toString 2006 ++ "/") = true :=
  c2_bundle_url_has_listing_path (fun _ _ => some 200)
    (fun _ => some [⟨"/Toyota/2006/camry-le/", "Camry LE"⟩]) "Toyota" 2006
    (listingUrl "Toyota" 2006) rfl
    (Entry.mk "Toyota" "Camry LE" "2006" "https://charm.li/bundle/Toyota/2006/camry-le/")
    (by decide)

/-- Claim C3: on every listing markup the Page Scraper returns, in
document order, exactly the pairs (stripped link text, base plus /bundle
plus href) of the hyperlinks whose stripped href starts with
/make/year/ and does not end with /bundle/; in particular the two-anchor
scenario of the spec yields exactly the Camry LE pair. -/
theorem c3_scraper_filters_detail_links :
    (∀ (doc : List Anchor) (mk : String) (y : Nat) (url : String),
      (get_models_for_year (fun _ => some doc) mk y url).2 =
      doc.filterMap (fun a =>
        if strStartsWith (pyStrip a.href) (modelLinkPre mk y) &&
           !(strEndsWith (pyStrip a.href) "/bundle/")
        then some (pyStrip a.text, BASE_URL ++ "/bundle" ++ pyStrip a.href)
        else none)) ∧
    (get_models_for_year
      (fun _ => some [⟨"/Toyota/2006/camry-le/", "Camry LE"⟩,
                      ⟨"/Toyota/2006/bundle/", "Models"⟩])
      "Toyota" 2006 "https://charm.li/Toyota/2006/").2 =
    [("Camry LE", "https://charm.li/bundle/Toyota/2006/camry-le/")] := by
  constructor
  · intro doc mk y url
    simp only [get_models_for_year]
    rw [scrapeLoop_eq]
    simp
  · decide

/-- Claim C4, counterexample.  The claim says the probe returns the URL
whenever the response's status indicates success; status 204 indicates
success in the HTTP sense, yet the probe, which compares against 200
exactly, returns absent for it. -/
theorem c4_success_status_cex :
    specSuccessStatus 204 = true ∧
    (probe_year (fun _ _ => some 204) "Toyota" 2006).2 = none := ⟨by decide, rfl⟩

/-- Claim C4, amended: the probe returns the constructed listing URL
exactly when the response status is 200, and returns an absent value for
every other status (success-class or not) and for every raised request
failure (timeout, connection error, DNS failure). -/
theorem c4_probe_200_exactly : ∀ (pr : ProbeOracle) (mk : String) (y : Nat),
    (pr mk y = some 200 → (probe_year pr mk y).2 = some (listingUrl mk y)) ∧
    (∀ code, pr mk y = some code → code ≠ 200 → (probe_year pr mk y).2 = none) ∧
    (pr mk y = none → (probe_year pr mk y).2 = none) := by
  intro pr mk y
  refine ⟨fun h => ?_, fun code h hc => ?_, fun h => ?_⟩
  · simp [probe_year, h]
  · simp [probe_year, h, hc]
  · simp [probe_year, h]

/-- Witness for the amended claim C4 at a concrete 200 response. -/
theorem c4_probe_200_exactly_witness :
    (probe_year (fun _ _ => some 200) "Toyota" 2006).2 =
    some (listingUrl "Toyota" 2006) :=
  (c4_probe_200_exactly (fun _ _ => some 200) "Toyota" 2006).1 rfl

/-- Claim C5: every entry of a run's manifest belongs to a configured make
and a year of the scan range whose probe returned present, and its year
field is the exact decimal string of that year (its make field the
decoded make); in particular no entry arises from a pair whose probe
returned absent. -/
theorem c5_entries_only_from_probed_years : ∀ (pr : ProbeOracle) (fr : FetchOracle)
    (fs0 : Option (List String)) (e : Entry),
    e ∈ (build_and_write_manifest pr fr fs0).2.1 →
    ∃ mk ∈ MAKES, ∃ y, YEAR_START ≤ y ∧ y ≤ YEAR_END ∧
      (probe_year pr mk y).2.isSome = true ∧
      e.year = toString y ∧ e.make = unquote mk := by
  intro pr fr fs0 e he
  have hm : e ∈ (makesLoop pr fr MAKES).2 := he
  obtain ⟨mk, hmk, hys⟩ := mem_makesLoop hm
  obtain ⟨y, hy, hstep⟩ := mem_yearsLoop hys
  obtain ⟨hsome, p, _, hpe⟩ := mem_yearStep hstep
  have hb : YEAR_START ≤ y ∧ y < YEAR_START + (YEAR_END + 1 - YEAR_START) := by
    simpa [yearRange, List.mem_range'_1] using hy
  have hb2 : y ≤ YEAR_END := by
    have h2 := hb.2
    simp only [YEAR_START, YEAR_END] at h2 ⊢
    omega
  exact ⟨mk, hmk, y, hb.1, hb2, hsome, by rw [hpe]; rfl, by rw [hpe]; rfl⟩

/-- Witness for claim C5: a concrete run in which exactly the pair
(Acura, 1980) probes present and yields one entry. -/
theorem c5_entries_only_from_probed_years_witness :
    ∃ mk ∈ MAKES, ∃ y, YEAR_START ≤ y ∧ y ≤ YEAR_END ∧
      (probe_year (fun mk' y' => if mk' = "Acura" ∧ y' = 1980 then some 200 else none)
        mk y).2.isSome = true ∧
      (Entry.mk "Acura" "Integra" "1980"
        "https://charm.li/bundle/Acura/1980/integra/").year = toString y ∧
      (Entry.mk "Acura" "Integra" "1980"
        "https://charm.li/bundle/Acura/1980/integra/").make = unquote mk :=
  c5_entries_only_from_probed_years
    (fun mk' y' => if mk' = "Acura" ∧ y' = 1980 then some 200 else none)
    (fun u => if u = "https://charm.li/Acura/1980/" then
                some [⟨"/Acura/1980/integra/", "Integra"⟩] else none)
    none
    (Entry.mk "Acura" "Integra" "1980" "https://charm.li/bundle/Acura/1980/integra/")
    (List.Mem.head _)

/-- Claim C6: the artifact of a run is produced irrespective of any
pre-existing file state (deletion of a missing file is not an error and
the write fully replaces whatever was there), its first record is the
header make,model,year,bundle_url, the remaining records are the manifest
rows in order, and it has exactly manifest length plus one records. -/
theorem c6_artifact_header_and_rows : ∀ (pr : ProbeOracle) (fr : FetchOracle)
    (fs0 fs1 : Option (List String)),
    (build_and_write_manifest pr fr fs0).2.2 =
      some (csvHeaderRow :: ((build_and_write_manifest pr fr fs0).2.1).map csvRow) ∧
    Option.map List.length (build_and_write_manifest pr fr fs0).2.2 =
      some ((build_and_write_manifest pr fr fs0).2.1.length + 1) ∧
    (build_and_write_manifest pr fr fs0).2.2 =
      (build_and_write_manifest pr fr fs1).2.2 := by
  intro pr fr fs0 fs1
  refine ⟨rfl, ?_, rfl⟩
  simp [build_and_write_manifest, writeCsv, csvLines]

/-- Claim C7: when a listing fetch fails, the Page Scraper logs a warning
and returns no entries, and the year loop goes on: the failed year
contributes zero manifest rows while the remaining years are processed
unchanged. -/
theorem c7_fetch_failure_recoverable : ∀ (pr : ProbeOracle) (fr : FetchOracle)
    (mk : String) (y : Nat) (ys : List Nat) (url : String),
    fr url = none →
    get_models_for_year fr mk y url = ([Event.req url, Event.warn url], []) ∧
    ((probe_year pr mk y).2 = some url →
      (yearsLoop pr fr mk (y :: ys)).2 = (yearsLoop pr fr mk ys).2 ∧
      (yearsLoop pr fr mk (y :: ys)).1 =
        (yearStep pr fr mk y).1 ++ (yearsLoop pr fr mk ys).1) := by
  intro pr fr mk y ys url hf
  constructor
  · simp only [get_models_for_year]
    rw [hf]
  · intro hp
    constructor
    · have hstep : (yearStep pr fr mk y).2 = [] := by
        simp only [yearStep]
        rw [hp]
        simp only [get_models_for_year]
        rw [hf]
        simp
      simp [yearsLoop, hstep]
    · simp [yearsLoop]

/-- Witness for claim C7 at a concrete failing fetch after a successful
probe. -/
theorem c7_fetch_failure_recoverable_witness :
    get_models_for_year (fun _ => none) "Toyota" 2006 (listingUrl "Toyota" 2006) =
      ([Event.req (listingUrl "Toyota" 2006), Event.warn (listingUrl "Toyota" 2006)], []) ∧
    (yearsLoop (fun _ _ => some 200) (fun _ => none) "Toyota" [2006]).2 =
      (yearsLoop (fun _ _ => some 200) (fun _ => none) "Toyota" []).2 :=
  ⟨(c7_fetch_failure_recoverable (fun _ _ => some 200) (fun _ => none) "Toyota" 2006 []
      (listingUrl "Toyota" 2006) rfl).1,
   ((c7_fetch_failure_recoverable (fun _ _ => some 200) (fun _ => none) "Toyota" 2006 []
      (listingUrl "Toyota" 2006) rfl).2 rfl).1⟩

/-- Claim C9: the scraping of a listing URL depends only on the markup
served at that URL; two runs over the same fixed markup, even under
otherwise different environments, yield the same ordered event and entry
sequences. -/
theorem c9_scrape_deterministic : ∀ (fr1 fr2 : FetchOracle) (mk : String)
    (y : Nat) (url : String), fr1 url = fr2 url →
    get_models_for_year fr1 mk y url = get_models_for_year fr2 mk y url := by
  intro fr1 fr2 mk y url h
  simp only [get_models_for_year]
  rw [h]

/-- Witness for claim C9: two distinct oracles serving the same markup at
the probed URL. -/
theorem c9_scrape_deterministic_witness :
    get_models_for_year (fun _ => some [⟨"/Toyota/2006/camry-le/", "Camry LE"⟩])
      "Toyota" 2006 (listingUrl "Toyota" 2006) =
    get_models_for_year
      (fun u => if u = "zzz" then none
                else some [⟨"/Toyota/2006/camry-le/", "Camry LE"⟩])
      "Toyota" 2006 (listingUrl "Toyota" 2006) :=
  c9_scrape_deterministic _ _ "Toyota" 2006 (listingUrl "Toyota" 2006) (by decide)

theorem hasSpace_append (l1 l2 : List Char) :
    hasSpace (l1 ++ l2) = (hasSpace l1 || hasSpace l2) := by
  simp [hasSpace, List.any_append]

theorem probe_url {pr : ProbeOracle} {mk : String} {y : Nat}
    (h : (probe_year pr mk y).2.isSome = true) :
    (probe_year pr mk y).2 = some (listingUrl mk y) := by
  simp only [probe_year] at h ⊢
  cases hc : pr mk y with
  | none => simp [hc] at h
  | some code =>
    simp only [hc] at h ⊢
    by_cases h2 : code = 200
    · simp [h2]
    · simp [h2] at h

/-- Claim C8, counterexample.  The claim says the lookup selects rows
whose model matches by case-insensitive substring containment of the
queried model; a queried model holding a LIKE wildcard refutes this: the
query below returns a row although the queried model x_ is not a
substring of the row's model xy. -/
theorem c8_substring_cex :
    query_manifest [Entry.mk "A" "xy" "1" "u"] "A" "x_" "1" = ["u"] ∧
    specModelContains "xy" "x_" = false := by
  constructor
  · have hlm : sqlILike "xy" "%x_%" = true := by
      simp [sqlILike, lowerStr, lowChar, likeMatch]
    simp [query_manifest, List.filter_cons, hlm]
  · decide

/-- Claim C8, amended: the lookup returns at most one record, selecting
bundle_url from rows whose make and year match exactly and whose model
matches the SQL LIKE pattern percent-model-percent case-insensitively,
with percent and underscore in the queried model acting as wildcards;
when the queried model is wildcard-free this coincides with
case-insensitive substring containment. -/
theorem c8_query_limit_and_ilike : ∀ (rows : List Entry) (mk mo yr : String),
    (query_manifest rows mk mo yr).length ≤ 1 ∧
    (∀ b ∈ query_manifest rows mk mo yr, ∃ r ∈ rows,
      r.bundle_url = b ∧ r.make = mk ∧ r.year = yr ∧
      sqlILike r.model ("%" ++ mo ++ "%") = true) ∧
    (noWild (lowerStr mo).data = true → ∀ t : String,
      sqlILike t ("%" ++ mo ++ "%") = specModelContains t mo) := by
  intro rows mk mo yr
  have hpc : lowChar '%' = '%' := by decide
  have hdata : (lowerStr ("%" ++ mo ++ "%")).data =
      '%' :: ((lowerStr mo).data ++ ['%']) := by
    simp [lowerStr, String.data_append, List.map_append, hpc]
  refine ⟨List.length_take_le _ _, ?_, ?_⟩
  · intro b hb
    have hb' := List.mem_of_mem_take hb
    rw [List.mem_map] at hb'
    obtain ⟨r, hr, hrb⟩ := hb'
    rw [List.mem_filter] at hr
    have hcond := hr.2
    simp only [Bool.and_eq_true, decide_eq_true_eq] at hcond
    exact ⟨r, hr.1, hrb, hcond.1.1, hcond.2, hcond.1.2⟩
  · intro hw t
    simp only [sqlILike]
    rw [hdata, likeMatch_occursIn hw]
    rfl

/-- Witness for the amended claim C8 at a concrete wildcard-free query. -/
theorem c8_query_limit_and_ilike_witness :
    (query_manifest [Entry.mk "A" "ab" "1" "u"] "A" "a" "1").length ≤ 1 ∧
    sqlILike "ab" ("%" ++ "a" ++ "%") = specModelContains "ab" "a" :=
  ⟨(c8_query_limit_and_ilike [Entry.mk "A" "ab" "1" "u"] "A" "a" "1").1,
   (c8_query_limit_and_ilike [Entry.mk "A" "ab" "1" "u"] "A" "a" "1").2.2 (by decide) "ab"⟩

/-- Claim C10, counterexample.  The claim says that for makes holding a
space the entry's decoded make never occurs as a substring of its
bundle_url; a listing page whose detail href itself holds the decoded
name refutes it: the emitted entry below has make Dodge and Ram occurring
inside its bundle_url. -/
theorem c10_make_substring_cex :
    (Entry.mk "Dodge and Ram" "B150" "1980"
      "https://charm.li/bundle/Dodge%20and%20Ram/1980/Dodge and Ram B150/") ∈
      (build_and_write_manifest
        (fun mk y => if mk = "Dodge%20and%20Ram" ∧ y = 1980 then some 200 else none)
        (fun u => if u = "https://charm.li/Dodge%20and%20Ram/1980/" then
                    some [⟨"/Dodge%20and%20Ram/1980/Dodge and Ram B150/", "B150"⟩]
                  else none)
        none).2.1 ∧
    occursIn ("Dodge and Ram" : String).data
      ("https://charm.li/bundle/Dodge%20and%20Ram/1980/Dodge and Ram B150/" : String).data
      = true :=
  ⟨List.Mem.head _, by decide⟩

/-- Claim C10, amended: every entry emitted for a configured make carries
the percent-decoded make while the bundle_url keeps the encoded form, so
the encoded make occurs inside the bundle_url; and the decoded make (for
names whose decoding introduces a space) does not occur in the bundle_url
as long as the listing page's hrefs are themselves space-free, the
space being able to enter only through the href's own trailing path. -/
theorem c10_make_decoded_not_in_url : ∀ (pr : ProbeOracle) (fr : FetchOracle)
    (mk : String) (y : Nat),
    hasSpace mk.data = false →
    hasSpace (unquote mk).data = true →
    (∀ doc, fr (listingUrl mk y) = some doc →
      ∀ a ∈ doc, hasSpace a.href.data = false) →
    ∀ e ∈ (yearStep pr fr mk y).2,
      e.make = unquote mk ∧
      occursIn mk.data e.bundle_url.data = true ∧
      occursIn e.make.data e.bundle_url.data = false := by
  intro pr fr mk y hmk hdec hdoc e he
  obtain ⟨hsome, p, hpmem, hpe⟩ := mem_yearStep he
  rw [probe_url hsome] at hpmem
  simp only [Option.getD_some] at hpmem
  cases hf : fr (listingUrl mk y) with
  | none => simp [get_models_for_year, hf] at hpmem
  | some doc =>
    simp only [get_models_for_year, hf] at hpmem
    obtain ⟨a, hamem, hcond, hpeq⟩ := mem_scrape hpmem
    have hsw : strStartsWith (pyStrip a.href) (modelLinkPre mk y) = true := by
      simp only [Bool.and_eq_true] at hcond
      exact hcond.1
    obtain ⟨t, ht⟩ := strStartsWith_iff.mp hsw
    have hbd := bundle_url_data ht
    have hhref : hasSpace a.href.data = false := hdoc doc hf a hamem
    have hstrip : hasSpace (pyStrip a.href).data = false := hasSpace_strip_false hhref
    have hno : hasSpace (BASE_URL ++ "/bundle" ++ pyStrip a.href).data = false := by
      rw [String.data_append, hasSpace_append, hstrip,
        show hasSpace (BASE_URL ++ "/bundle").data = false from by decide]
      rfl
    subst hpe
    subst hpeq
    refine ⟨by simp [entryOf], ?_, ?_⟩
    · show occursIn mk.data (BASE_URL ++ "/bundle" ++ pyStrip a.href).data = true
      apply occursIn_iff.mpr
      refine ⟨(BASE_URL ++ "/bundle/").data, ("/" ++ toString y ++ "/").data ++ t, ?_⟩
      rw [hbd]
      simp [String.data_append, List.append_assoc]
    · show occursIn (unquote mk).data (BASE_URL ++ "/bundle" ++ pyStrip a.href).data = false
      cases hoc : occursIn (unquote mk).data
        (BASE_URL ++ "/bundle" ++ pyStrip a.href).data with
      | false => rfl
      | true =>
        have hcontr := hasSpace_of_occursIn hoc hdec
        rw [hcontr] at hno
        exact Bool.noConfusion hno

/-- Witness for the amended claim C10 at a concrete space-free listing
page of the encoded make Dodge%20and%20Ram. -/
theorem c10_make_decoded_not_in_url_witness :
    (Entry.mk "Dodge and Ram" "B150" "1980"
      "https://charm.li/bundle/Dodge%20and%20Ram/1980/b150/").make =
      unquote "Dodge%20and%20Ram" ∧
    occursIn ("Dodge%20and%20Ram" : String).data
      (Entry.mk "Dodge and Ram" "B150" "1980"
        "https://charm.li/bundle/Dodge%20and%20Ram/1980/b150/").bundle_url.data = true ∧
    occursIn (Entry.mk "Dodge and Ram" "B150" "1980"
        "https://charm.li/bundle/Dodge%20and%20Ram/1980/b150/").make.data
      (Entry.mk "Dodge and Ram" "B150" "1980"
        "https://charm.li/bundle/Dodge%20and%20Ram/1980/b150/").bundle_url.data = false :=
  c10_make_decoded_not_in_url (fun _ _ => some 200)
    (fun _ => some [⟨"/Dodge%20and%20Ram/1980/b150/", "B150"⟩])
    "Dodge%20and%20Ram" 1980 (by decide) (by decide)
    (by intro doc hd a ha
        cases hd
        revert a ha
        decide)
    (Entry.mk "Dodge and Ram" "B150" "1980"
      "https://charm.li/bundle/Dodge%20and%20Ram/1980/b150/")
    (by decide)

